import Mathlib

set_option maxRecDepth 100000

/-!
# World Trivia TV — verification of the spec against the source

Shallow embedding of `src/pages/index.tsx` (a Next.js app consisting of a
selection screen, two API-route handler variants, and the `Play` playback
screen).  Pure functions of the source become Lean functions; the React
playback component becomes an explicit state record with a step function per
event (one-second timer tick and the user-triggered handlers), with the
`useEffect` re-run semantics made explicit.  JavaScript numbers used as
counters are modelled as `Int` (the countdown) and `Nat` (indices); the
`Math.random()` oracle of the shuffle is modelled as a function giving, for
each loop index `i`, the chosen swap target `j = Math.floor(Math.random()*(i+1))`.
-/

namespace WorldTriviaTV

/-- `TriviaItem` as declared in the source: country, period, question, answer,
optional fun fact. -/
structure TriviaItem where
  country : String
  period : String
  question : String
  answer : String
  funFact : Option String
deriving DecidableEq, Repr

/-! ## The Fisher–Yates shuffle (`shuffleArray`)

```js
function shuffleArray<T>(array: T[]): T[] {
  const shuffled = [...array];
  for (let i = shuffled.length - 1; i > 0; i--) {
    const j = Math.floor(Math.random() * (i + 1));
    [shuffled[i], shuffled[j]] = [shuffled[j], shuffled[i]];
  }
  return shuffled;
}
```

`rand i` models the value `Math.floor(Math.random() * (i + 1))` drawn at loop
index `i`; since `Math.random() < 1`, the real draw always satisfies
`rand i ≤ i`. -/

/-- The destructuring swap `[a[i], a[j]] = [a[j], a[i]]`, on lists.  Out of
bounds (which the source never hits, since `j ≤ i < length`) it is the
identity. -/
def listSwap {α : Type u} (l : List α) (i j : Nat) : List α :=
  match l.get? i, l.get? j with
  | some a, some b => (l.set i b).set j a
  | _, _ => l

/-- The `for (let i = ...; i > 0; i--)` loop: processes index `i`, then
`i - 1`, ..., down to `1`. -/
def fisherYatesAux {α : Type u} (rand : Nat → Nat) (l : List α) : Nat → List α
  | 0 => l
  | i + 1 => fisherYatesAux rand (listSwap l (i + 1) (rand (i + 1))) i

/-- `shuffleArray`: copy the input, run the swap loop from `length - 1`
down to `1`. -/
def shuffleArray {α : Type u} (rand : Nat → Nat) (array : List α) : List α :=
  fisherYatesAux rand array (array.length - 1)

/-! ## The API route handlers

Two handler variants appear in the repository.  Both validate the
country / countries query parameter, filter the static `triviaData`
collection, optionally filter by period, shuffle, and respond.

Query parameters are modelled as `Option String` (`none` = absent).  The
JavaScript truthiness test `if (!country)` treats both `undefined` and the
empty string as missing. -/

/-- Model of JS `String.prototype.toLowerCase`, per character (the trivia
data and query values are ASCII; Unicode special casing is not modelled). -/
def toLowerStr (s : String) : String := String.mk (s.data.map Char.toLower)

/-- Model of JS `String.prototype.split(',')`: accumulator-based scan. -/
def splitOnCommaAux : List Char → List Char → List String
  | [], acc => [String.mk acc.reverse]
  | c :: rest, acc =>
      if c == ',' then String.mk acc.reverse :: splitOnCommaAux rest []
      else splitOnCommaAux rest (c :: acc)

/-- `countries.split(',')`. -/
def splitOnComma (s : String) : List String := splitOnCommaAux s.data []

/-- JS falsiness of an optional string query parameter: absent or `""`. -/
def isFalsy : Option String → Bool
  | none => true
  | some s => s == ""

/-- The guard `period && period !== 'any' && period.toLowerCase() !== 'any time'`:
true exactly when the period filter is applied. -/
def periodFilterActive : Option String → Bool
  | none => false
  | some p => !(p == "") && !(p == "any") && !(toLowerStr p == "any time")

/-- The filtering stage shared by the first handler:
country match is case-insensitive, then an exact period match is applied
when `periodFilterActive`. -/
def handlerFiltered (triviaData : List TriviaItem) (country : String)
    (period : Option String) : List TriviaItem :=
  let filtered := triviaData.filter
    (fun item => toLowerStr item.country == toLowerStr country)
  if periodFilterActive period then
    filtered.filter (fun item => item.period == period.getD "")
  else
    filtered

/-- Response body: either `{ items: ... }` or `{ error: ... }`. -/
inductive ApiBody where
  | items (items : List TriviaItem)
  | error (msg : String)
deriving DecidableEq, Repr

/-- An API response: HTTP status code plus JSON body. -/
structure ApiResponse where
  status : Nat
  body : ApiBody
deriving DecidableEq, Repr

/-- First handler variant (`country` parameter).  `rand` is the
`Math.random` oracle consumed by `shuffleArray`. -/
def handler (rand : Nat → Nat) (triviaData : List TriviaItem)
    (country : Option String) (period : Option String) : ApiResponse :=
  if isFalsy country then
    ⟨400, .error "Country parameter is required"⟩
  else
    ⟨200, .items (shuffleArray rand (handlerFiltered triviaData (country.getD "") period))⟩

/-- The filtering stage of the second handler variant: the `countries`
parameter is split on commas and an item matches when its country equals any
entry case-insensitively; the period filter is identical. -/
def handlerMultiFiltered (triviaData : List TriviaItem) (countries : String)
    (period : Option String) : List TriviaItem :=
  let countryList := splitOnComma countries
  let filtered := triviaData.filter
    (fun item => countryList.any (fun c => toLowerStr item.country == toLowerStr c))
  if periodFilterActive period then
    filtered.filter (fun item => item.period == period.getD "")
  else
    filtered

/-- Second handler variant (`countries` parameter, comma-separated list).
Note its 400 error body reads "Countries parameter is required". -/
def handlerMulti (rand : Nat → Nat) (triviaData : List TriviaItem)
    (countries : Option String) (period : Option String) : ApiResponse :=
  if isFalsy countries then
    ⟨400, .error "Countries parameter is required"⟩
  else
    ⟨200, .items (shuffleArray rand (handlerMultiFiltered triviaData (countries.getD "") period))⟩

/-! ## `fetchTrivia` in the `Play` component

```js
const requestedCount = count ? parseInt(count as string) : 10;
const limitedItems = data.items.slice(0, requestedCount);
```

`parseInt` returning `NaN` is modelled as `none` (hexadecimal `0x` prefixes
are not modelled; no claim involves them).  `slice(0, end)` converts `NaN`
to `0` and clamps a negative `end` from the back, per ECMAScript
`ToIntegerOrInfinity`. -/

/-- `parseInt(s)` in radix 10: skip leading whitespace, optional sign, then
the longest digit prefix; `none` when no digit follows (JS `NaN`). -/
def jsParseInt (s : String) : Option Int :=
  let cs := s.toList.dropWhile (fun c => c == ' ' || c == '\t' || c == '\n' || c == '\r')
  let signAndRest : Int × List Char :=
    match cs with
    | '-' :: rest => (-1, rest)
    | '+' :: rest => (1, rest)
    | _ => (1, cs)
  let digits := signAndRest.2.takeWhile Char.isDigit
  if digits.isEmpty then none
  else some (signAndRest.1 *
    (digits.foldl (fun acc c => acc * 10 + (c.toNat - '0'.toNat)) 0 : Nat))

/-- `count ? parseInt(count) : 10` — `none` models the `NaN` outcome. -/
def requestedCount (count : Option String) : Option Int :=
  if isFalsy count then some 10 else jsParseInt (count.getD "")

/-- `array.slice(0, e)` where `e` may be `NaN` (modelled `none`, treated as
`0`) or negative (counted from the end, clamped at `0`). -/
def jsSliceUpTo {α : Type u} (l : List α) (e : Option Int) : List α :=
  match e with
  | none => []
  | some n => if 0 ≤ n then l.take n.toNat else l.take (l.length - min l.length (-n).toNat)

/-- `limitedItems`: the list the playback screen actually plays. -/
def limitedItems (items : List TriviaItem) (count : Option String) : List TriviaItem :=
  jsSliceUpTo items (requestedCount count)

/-- Outcome of `fetchTrivia` as reflected in the component state: either an
error message is set (error screen, message also narrated) or the limited
items enter the playing state. -/
inductive FetchOutcome where
  | errorState (message : String)
  | playing (items : List TriviaItem)
deriving DecidableEq, Repr

/-- `fetchTrivia` consuming a response: `!response.ok` (status outside
200–299) throws into the catch branch; an error body makes
`data.items.length` throw likewise; an empty items list sets the
"not found" message; otherwise the capped list is stored. -/
def fetchOutcome (resp : ApiResponse) (count : Option String) : FetchOutcome :=
  if resp.status < 200 || 299 < resp.status then
    .errorState "Failed to load trivia. Please check your connection and try again."
  else
    match resp.body with
    | .error _ =>
        .errorState "Failed to load trivia. Please check your connection and try again."
    | .items items =>
        if items.length == 0 then
          .errorState "No trivia found for this selection. Please go back and try another combination."
        else
          .playing (limitedItems items count)

/-! ## The playback state machine (`Play` component)

The component state during the playing phase (after a successful, non-empty
fetch, so `loading = false` and `error = ''`; those two fields are constant
and elided).  `triviaItems` never changes during a run. -/

/-- Playback state of the `Play` component. -/
structure PlayState where
  items : List TriviaItem
  currentIndex : Nat
  showAnswer : Bool
  isPaused : Bool
  hasEnded : Bool
  countdown : Int
deriving DecidableEq, Repr

/-- The interval callback (`setCountdown(prev => ...)`), including the guard
that no interval is installed while paused or ended (or with no items):
those states see no tick at all. -/
def tickRaw (s : PlayState) : PlayState :=
  if s.items.isEmpty || s.isPaused || s.hasEnded then s
  else if s.countdown ≤ 1 then
    if !s.showAnswer then
      { s with showAnswer := true, countdown := 6 }
    else if s.currentIndex < s.items.length - 1 then
      { s with currentIndex := s.currentIndex + 1, showAnswer := false, countdown := 8 }
    else
      { s with hasEnded := true, countdown := 0 }
  else
    { s with countdown := s.countdown - 1 }

/-- The speak-question effect: when not paused/ended and no answer is shown,
it narrates the current question and does `setCountdown(8)`. -/
def questionEffect (s : PlayState) : PlayState :=
  if !s.items.isEmpty && !s.isPaused && !s.hasEnded && !s.showAnswer then
    { s with countdown := 8 }
  else s

/-- The dependency array of the speak-question effect, restricted to fields
that can change during a run: `[currentIndex, isPaused, hasEnded, showAnswer]`
(`triviaItems`, `loading`, `error` are constant here; `countdown` is *not* a
dependency, so plain countdown decrements never re-fire the effect). -/
def effectDeps (s : PlayState) : Nat × Bool × Bool × Bool :=
  (s.currentIndex, s.isPaused, s.hasEnded, s.showAnswer)

/-- React semantics of one state transition `f`: after the update, the
speak-question effect re-runs iff one of its dependencies changed. -/
def withEffect (f : PlayState → PlayState) (s : PlayState) : PlayState :=
  if effectDeps (f s) = effectDeps s then f s else questionEffect (f s)

/-- State on entering the playing phase: `useState` initial values, then the
mount run of the speak-question effect. -/
def initState (items : List TriviaItem) : PlayState :=
  questionEffect
    { items := items, currentIndex := 0, showAnswer := false,
      isPaused := false, hasEnded := false, countdown := 8 }

/-- `handleNextQuestion`. -/
def handleNextQuestion (s : PlayState) : PlayState :=
  if s.currentIndex < s.items.length - 1 then
    { s with currentIndex := s.currentIndex + 1, showAnswer := false, countdown := 8 }
  else
    { s with hasEnded := true }

/-- `handlePausePlay`. -/
def handlePausePlay (s : PlayState) : PlayState :=
  { s with isPaused := !s.isPaused }

/-- `handleReplay`. -/
def handleReplay (s : PlayState) : PlayState :=
  { s with
    currentIndex := 0
    showAnswer := false
    hasEnded := false
    isPaused := false
    countdown := 8 }

/-- Events: the one-second timer tick and the user-triggered buttons. -/
inductive PlayEvent where
  | tick
  | pauseToggle
  | nextQuestion
  | repeatSpeech
  | replayAll
deriving DecidableEq, Repr

/-- One step of the playback screen.  Button availability follows the
render: while `hasEnded` only Replay (and Back) are rendered; otherwise
Pause, Repeat and Next are.  `handleRepeat` only narrates and leaves the
state unchanged. -/
def step (e : PlayEvent) (s : PlayState) : PlayState :=
  match e with
  | .tick => withEffect tickRaw s
  | .pauseToggle => if s.hasEnded then s else withEffect handlePausePlay s
  | .nextQuestion => if s.hasEnded then s else withEffect handleNextQuestion s
  | .repeatSpeech => s
  | .replayAll => if s.hasEnded then withEffect handleReplay s else s

/-- Running a sequence of events. -/
def run (es : List PlayEvent) (s : PlayState) : PlayState :=
  es.foldl (fun s e => step e s) s

/-- A sample trivia item used in concrete traces. -/
def sampleA : TriviaItem :=
  ⟨"USA", "1960-1979", "Question A", "Answer A", none⟩

/-- A second sample trivia item used in concrete traces. -/
def sampleB : TriviaItem :=
  ⟨"USA", "1980-1999", "Question B", "Answer B", some "Fun fact B"⟩

/-! ## A small heap model for the mutation claim about `shuffleArray`

`shuffleArray` receives an array object by reference.  To state that the
function does not mutate its argument, arrays live in a heap (a list of
array contents, indexed by reference); `const shuffled = [...array]`
allocates a fresh reference holding a copy, and every swap of the loop
writes through the fresh reference only. -/

/-- A heap of array objects: the reference is the index. -/
abbrev Heap (α : Type u) : Type u := List (List α)

/-- Dereference an array; dangling references read as `[]`. -/
def heapLookup {α : Type u} (h : Heap α) (r : Nat) : List α := h.getD r []

/-- The swap loop of `shuffleArray`, writing through reference `ref`. -/
def fyHeapLoop {α : Type u} (rand : Nat → Nat) (h : Heap α) (ref : Nat) : Nat → Heap α
  | 0 => h
  | i + 1 =>
      fyHeapLoop rand (h.set ref (listSwap (heapLookup h ref) (i + 1) (rand (i + 1)))) ref i

/-- `shuffleArray` on the heap: copy the argument into a fresh reference
(`const shuffled = [...array]`), run the loop there, return the fresh
reference. -/
def shuffleArrayHeap {α : Type u} (rand : Nat → Nat) (h : Heap α) (ref : Nat) :
    Heap α × Nat :=
  (fyHeapLoop rand (h ++ [heapLookup h ref]) h.length ((heapLookup h ref).length - 1),
   h.length)

/-- The retrieval filter as claim C4 words it: country equal
case-insensitively, and the period equal exactly unless the period is
absent or is the sentinel "any"/"any time" compared case-insensitively. -/
def claimedFilterC4 (triviaData : List TriviaItem) (country : String)
    (period : Option String) : List TriviaItem :=
  triviaData.filter (fun item =>
    toLowerStr item.country == toLowerStr country &&
    (match period with
     | none => true
     | some p =>
        if toLowerStr p == "any" || toLowerStr p == "any time" then true
        else item.period == p))

/-- The retrieval filter as the code implements it, written as one pass:
country equal case-insensitively, and, whenever the period filter is active
(period present, non-empty, not exactly `"any"`, and not `"any time"`
case-insensitively), the period equal exactly. -/
def amendedFilter (triviaData : List TriviaItem) (country : String)
    (period : Option String) : List TriviaItem :=
  triviaData.filter (fun item =>
    toLowerStr item.country == toLowerStr country &&
    (!(periodFilterActive period) || item.period == period.getD ""))

/-- The multi-country variant of `amendedFilter`: the country equals any
comma-separated entry case-insensitively. -/
def amendedFilterMulti (triviaData : List TriviaItem) (countries : String)
    (period : Option String) : List TriviaItem :=
  triviaData.filter (fun item =>
    (splitOnComma countries).any (fun c => toLowerStr item.country == toLowerStr c) &&
    (!(periodFilterActive period) || item.period == period.getD ""))

/-- The successor the natural countdown-expiry tick transition would
produce from `s`: the tick taken with the countdown at its expiry value. -/
def expirySuccessor (s : PlayState) : PlayState :=
  step PlayEvent.tick { s with countdown := 1 }

/-- Run invariant of the playback screen: the item list is the retrieved
list, the index stays in range, the countdown stays non-negative. -/
def Inv (itemsZ : List TriviaItem) (s : PlayState) : Prop :=
  s.items = itemsZ ∧ s.currentIndex < itemsZ.length ∧ 0 ≤ s.countdown

/-! ## Supporting lemmas -/

theorem cons_set_perm {α : Type u} :
    ∀ (l : List α) (j : Nat) (a : α) (hj : j < l.length),
      (l.get ⟨j, hj⟩ :: l.set j a).Perm (a :: l)
  | [], j, a, hj => absurd hj (by simp)
  | x :: t, 0, a, _ => by
      simpa using List.Perm.swap a x t
  | x :: t, j + 1, a, hj => by
      have hj' : j < t.length := by simpa using hj
      have h0 : (x :: t).get ⟨j + 1, hj⟩ :: (x :: t).set (j + 1) a
          = t.get ⟨j, hj'⟩ :: x :: t.set j a := by simp
      rw [h0]
      have p1 : (t.get ⟨j, hj'⟩ :: x :: t.set j a).Perm
          (x :: t.get ⟨j, hj'⟩ :: t.set j a) := List.Perm.swap x _ _
      have p2 : (x :: t.get ⟨j, hj'⟩ :: t.set j a).Perm (x :: a :: t) :=
        (cons_set_perm t j a hj').cons x
      have p3 : (x :: a :: t).Perm (a :: x :: t) := List.Perm.swap a x t
      exact (p1.trans p2).trans p3

theorem set_set_perm {α : Type u} :
    ∀ (l : List α) (i j : Nat) (hi : i < l.length) (hj : j < l.length),
      ((l.set i (l.get ⟨j, hj⟩)).set j (l.get ⟨i, hi⟩)).Perm l
  | [], i, j, hi, _ => absurd hi (by simp)
  | x :: t, 0, 0, _, _ => by simp
  | x :: t, 0, j + 1, hi, hj => by
      have hj' : j < t.length := by simpa using hj
      have h1 : ((x :: t).set 0 ((x :: t).get ⟨j + 1, hj⟩)).set (j + 1)
          ((x :: t).get ⟨0, hi⟩) = t.get ⟨j, hj'⟩ :: t.set j x := by simp
      rw [h1]
      exact cons_set_perm t j x hj'
  | x :: t, i + 1, 0, hi, hj => by
      have hi' : i < t.length := by simpa using hi
      have h1 : ((x :: t).set (i + 1) ((x :: t).get ⟨0, hj⟩)).set 0
          ((x :: t).get ⟨i + 1, hi⟩) = t.get ⟨i, hi'⟩ :: t.set i x := by simp
      rw [h1]
      exact cons_set_perm t i x hi'
  | x :: t, i + 1, j + 1, hi, hj => by
      have hi' : i < t.length := by simpa using hi
      have hj' : j < t.length := by simpa using hj
      have h1 : ((x :: t).set (i + 1) ((x :: t).get ⟨j + 1, hj⟩)).set (j + 1)
          ((x :: t).get ⟨i + 1, hi⟩)
          = x :: (t.set i (t.get ⟨j, hj'⟩)).set j (t.get ⟨i, hi'⟩) := by simp
      rw [h1]
      exact (set_set_perm t i j hi' hj').cons x

theorem listSwap_perm {α : Type u} (l : List α) (i j : Nat) :
    (listSwap l i j).Perm l := by
  unfold listSwap
  cases hi : l.get? i with
  | none => exact List.Perm.refl l
  | some a =>
    cases hj : l.get? j with
    | none => exact List.Perm.refl l
    | some b =>
      have hi' : i < l.length := List.get?_eq_some.mp hi |>.1
      have hj' : j < l.length := List.get?_eq_some.mp hj |>.1
      have ha : a = l.get ⟨i, hi'⟩ := by
        have := List.get?_eq_get hi'
        rw [this] at hi
        exact (Option.some.injEq _ _ ▸ hi).symm
      have hb : b = l.get ⟨j, hj'⟩ := by
        have := List.get?_eq_get hj'
        rw [this] at hj
        exact (Option.some.injEq _ _ ▸ hj).symm
      rw [ha, hb]
      exact set_set_perm l i j hi' hj'

theorem fisherYatesAux_perm {α : Type u} (rand : Nat → Nat) :
    ∀ (n : Nat) (l : List α), (fisherYatesAux rand l n).Perm l
  | 0, l => List.Perm.refl l
  | n + 1, l => by
      unfold fisherYatesAux
      exact (fisherYatesAux_perm rand n _).trans (listSwap_perm l (n + 1) (rand (n + 1)))

theorem shuffleArray_perm {α : Type u} (rand : Nat → Nat) (array : List α) :
    (shuffleArray rand array).Perm array :=
  fisherYatesAux_perm rand (array.length - 1) array

theorem shuffleArray_length {α : Type u} (rand : Nat → Nat) (array : List α) :
    (shuffleArray rand array).length = array.length :=
  (shuffleArray_perm rand array).length_eq

theorem getD_set_ne {α : Type u} {m n : Nat} (l : List α) (a d : α) (h : m ≠ n) :
    (l.set m a).getD n d = l.getD n d := by
  simp [List.getD, List.getElem?_set_ne h]

theorem getD_set_self {α : Type u} {n : Nat} (l : List α) (a d : α) (h : n < l.length) :
    (l.set n a).getD n d = a := by
  simp [List.getD, List.getElem?_set_eq_of_lt a h]

theorem getD_append_left {α : Type u} {n : Nat} (l₁ l₂ : List α) (d : α)
    (h : n < l₁.length) : (l₁ ++ l₂).getD n d = l₁.getD n d := by
  simp [List.getD, List.getElem?_append_left h]

theorem getD_append_len {α : Type u} (l : List α) (a d : α) :
    (l ++ [a]).getD l.length d = a := by
  simp [List.getD, List.getElem?_append_right (Nat.le_refl l.length)]

theorem set_getD_self {α : Type u} :
    ∀ (l : List α) (n : Nat) (d : α), n < l.length → l.set n (l.getD n d) = l
  | [], n, d, h => absurd h (by simp)
  | x :: t, 0, d, _ => by simp [List.getD]
  | x :: t, n + 1, d, h => by
      have h' : n < t.length := by simpa using h
      simp only [List.getD_cons_succ, List.set]
      rw [set_getD_self t n d h']

theorem fyHeapLoop_eq {α : Type u} (rand : Nat → Nat) :
    ∀ (n : Nat) (h : Heap α) (ref : Nat), ref < h.length →
      fyHeapLoop rand h ref n = h.set ref (fisherYatesAux rand (heapLookup h ref) n)
  | 0, h, ref, href => by
      unfold fyHeapLoop fisherYatesAux
      exact (set_getD_self h ref [] href).symm
  | n + 1, h, ref, href => by
      unfold fyHeapLoop
      have hlen : ref < (h.set ref (listSwap (heapLookup h ref) (n + 1) (rand (n + 1)))).length := by
        simpa using href
      rw [fyHeapLoop_eq rand n _ ref hlen]
      have hsetlk : heapLookup (h.set ref (listSwap (heapLookup h ref) (n + 1) (rand (n + 1)))) ref
          = listSwap (heapLookup h ref) (n + 1) (rand (n + 1)) :=
        getD_set_self h _ [] href
      rw [hsetlk, List.set_set]
      rfl

/-! ## Theorems for the specification claims -/

theorem handlerFiltered_eq_amended (triviaData : List TriviaItem) (country : String)
    (period : Option String) :
    handlerFiltered triviaData country period = amendedFilter triviaData country period := by
  unfold handlerFiltered amendedFilter
  cases hp : periodFilterActive period with
  | false =>
    simp only [hp, if_neg Bool.false_ne_true]
    refine List.filter_congr ?_
    intro a _
    simp
  | true =>
    simp only [hp, if_pos rfl]
    rw [List.filter_filter]
    refine List.filter_congr ?_
    intro a _
    simp [Bool.and_comm]

theorem handlerMultiFiltered_eq_amended (triviaData : List TriviaItem) (countries : String)
    (period : Option String) :
    handlerMultiFiltered triviaData countries period
      = amendedFilterMulti triviaData countries period := by
  unfold handlerMultiFiltered amendedFilterMulti
  cases hp : periodFilterActive period with
  | false =>
    simp only [hp, if_neg Bool.false_ne_true]
    refine List.filter_congr ?_
    intro a _
    simp
  | true =>
    simp only [hp, if_pos rfl]
    rw [List.filter_filter]
    refine List.filter_congr ?_
    intro a _
    simp [Bool.and_comm]

/-- C4 counterexample: for the request `country = "USA"`, `period = "Any"`,
on a collection with one USA item of period "1960-1979", the claim's filter
(which treats "Any" as the sentinel case-insensitively) keeps the item, but
the handler filters by the literal period `"Any"` and returns no items, so
the handler does not return the items the claim describes. -/
theorem c4_counterexample :
    (handler (fun _ => 0) [sampleA] (some "USA") (some "Any")).body
      = ApiBody.items [] ∧
    claimedFilterC4 [sampleA] "USA" (some "Any") = [sampleA] ∧
    ¬ (List.Perm ([] : List TriviaItem) [sampleA]) := by
  refine ⟨by decide, by decide, ?_⟩
  intro h
  exact absurd h.length_eq (by decide)

/-- C4 (amended): for every request with a non-missing country (resp.
comma-separated countries) and optional period, each handler responds 200
with exactly the items of the collection matching the country
case-insensitively and the period exactly — the period filter being skipped
when the period is absent, empty, exactly `"any"`, or `"any time"`
case-insensitively — in shuffled order. -/
theorem c4_handler_returns_filtered_items :
    (∀ (rand : Nat → Nat) (triviaData : List TriviaItem) (c : String) (p : Option String),
      isFalsy (some c) = false →
      (handler rand triviaData (some c) p).status = 200 ∧
      ∃ l, (handler rand triviaData (some c) p).body = ApiBody.items l ∧
        l.Perm (amendedFilter triviaData c p)) ∧
    (∀ (rand : Nat → Nat) (triviaData : List TriviaItem) (cs : String) (p : Option String),
      isFalsy (some cs) = false →
      (handlerMulti rand triviaData (some cs) p).status = 200 ∧
      ∃ l, (handlerMulti rand triviaData (some cs) p).body = ApiBody.items l ∧
        l.Perm (amendedFilterMulti triviaData cs p)) := by
  constructor
  · intro rand triviaData c p hc
    unfold handler
    rw [hc]
    simp only [Bool.false_eq_true, if_neg]
    refine ⟨rfl, shuffleArray rand (handlerFiltered triviaData c p), rfl, ?_⟩
    rw [← handlerFiltered_eq_amended]
    exact shuffleArray_perm rand _
  · intro rand triviaData cs p hcs
    unfold handlerMulti
    rw [hcs]
    simp only [Bool.false_eq_true, if_neg]
    refine ⟨rfl, shuffleArray rand (handlerMultiFiltered triviaData cs p), rfl, ?_⟩
    rw [← handlerMultiFiltered_eq_amended]
    exact shuffleArray_perm rand _

/-- Witness for the amended C4 at concrete requests. -/
theorem c4_handler_returns_filtered_items_witness :
    ((handler (fun _ => 0) [sampleA, sampleB] (some "usa") (some "any")).status = 200 ∧
      ∃ l, (handler (fun _ => 0) [sampleA, sampleB] (some "usa") (some "any")).body
          = ApiBody.items l ∧
        l.Perm (amendedFilter [sampleA, sampleB] "usa" (some "any"))) ∧
    ((handlerMulti (fun _ => 0) [sampleA, sampleB] (some "usa,nigeria") none).status = 200 ∧
      ∃ l, (handlerMulti (fun _ => 0) [sampleA, sampleB] (some "usa,nigeria") none).body
          = ApiBody.items l ∧
        l.Perm (amendedFilterMulti [sampleA, sampleB] "usa,nigeria" none)) :=
  ⟨c4_handler_returns_filtered_items.1 (fun _ => 0) [sampleA, sampleB] "usa" (some "any")
      (by decide),
   c4_handler_returns_filtered_items.2 (fun _ => 0) [sampleA, sampleB] "usa,nigeria" none
      (by decide)⟩

/-- C6 counterexample: with the `countries` parameter missing, the second
handler variant responds 400 but with the body
`{ error: "Countries parameter is required" }`, not the claimed
`{ error: "Country parameter is required" }`. -/
theorem c6_counterexample :
    (handlerMulti (fun _ => 0) [] none none).status = 400 ∧
    (handlerMulti (fun _ => 0) [] none none).body
      = ApiBody.error "Countries parameter is required" ∧
    (handlerMulti (fun _ => 0) [] none none).body
      ≠ ApiBody.error "Country parameter is required" := by
  refine ⟨rfl, rfl, ?_⟩
  decide

/-- C6 (amended): a missing (absent or empty) country parameter makes the
first handler respond 400 with `{ error: "Country parameter is required" }`
and a missing countries parameter makes the second respond 400 with
`{ error: "Countries parameter is required" }`; neither ever responds 200
on such a request. -/
theorem c6_missing_country_is_400 (rand rand' : Nat → Nat)
    (triviaData triviaData' : List TriviaItem) (country countries : Option String)
    (period period' : Option String)
    (hc : isFalsy country = true) (hcs : isFalsy countries = true) :
    handler rand triviaData country period
      = ⟨400, ApiBody.error "Country parameter is required"⟩ ∧
    handlerMulti rand' triviaData' countries period'
      = ⟨400, ApiBody.error "Countries parameter is required"⟩ ∧
    (handler rand triviaData country period).status ≠ 200 ∧
    (handlerMulti rand' triviaData' countries period').status ≠ 200 := by
  have h1 : handler rand triviaData country period
      = ⟨400, ApiBody.error "Country parameter is required"⟩ := by
    unfold handler
    rw [hc]
    rfl
  have h2 : handlerMulti rand' triviaData' countries period'
      = ⟨400, ApiBody.error "Countries parameter is required"⟩ := by
    unfold handlerMulti
    rw [hcs]
    rfl
  refine ⟨h1, h2, ?_, ?_⟩
  · rw [h1]
    decide
  · rw [h2]
    decide

/-- Witness for C6 at concretely missing parameters. -/
theorem c6_missing_country_is_400_witness :
    handler (fun _ => 0) [sampleA] none none
      = ⟨400, ApiBody.error "Country parameter is required"⟩ ∧
    handlerMulti (fun _ => 0) [sampleA] (some "") none
      = ⟨400, ApiBody.error "Countries parameter is required"⟩ := by
  have h := c6_missing_country_is_400 (fun _ => 0) (fun _ => 0) [sampleA] [sampleA]
    none (some "") none none (by decide) (by decide)
  exact ⟨h.1, h.2.1⟩

/-- C7: the code at the failing input.  With `count = "abc"` (truthy but
unparseable, so `parseInt` yields `NaN`) and three fetched items, the
playback list is `slice(0, NaN) = []` — 0 items — while the claim requires
`min 10 3 = 3` items; with `count` absent the default 10 applies and all
three items are played. -/
theorem c7_unparseable_count_plays_zero :
    requestedCount (some "abc") = none ∧
    limitedItems [sampleA, sampleB, sampleA] (some "abc") = [] ∧
    min 10 ([sampleA, sampleB, sampleA].length) = 3 ∧
    limitedItems [sampleA, sampleB, sampleA] none = [sampleA, sampleB, sampleA] := by
  refine ⟨rfl, rfl, rfl, rfl⟩

/-- C9: an empty retrieval result is not an error.  Whenever the country is
present but the filter matches nothing, the handler responds HTTP 200 with
an empty items list, and `fetchTrivia`, on that response, sets (and
narrates) the "not found" message instead of entering the playing state. -/
theorem c9_empty_result_not_error (rand : Nat → Nat) (triviaData : List TriviaItem)
    (c : String) (p cnt : Option String)
    (hc : isFalsy (some c) = false)
    (hempty : handlerFiltered triviaData c p = []) :
    handler rand triviaData (some c) p = ⟨200, ApiBody.items []⟩ ∧
    fetchOutcome (handler rand triviaData (some c) p) cnt
      = FetchOutcome.errorState
          "No trivia found for this selection. Please go back and try another combination." := by
  have h1 : handler rand triviaData (some c) p = ⟨200, ApiBody.items []⟩ := by
    unfold handler
    rw [hc]
    simp only [Option.getD_some]
    rw [hempty]
    rfl
  refine ⟨h1, ?_⟩
  rw [h1]
  rfl

/-- Witness for C9: a Nigeria request against a USA-only collection. -/
theorem c9_empty_result_not_error_witness :
    handler (fun _ => 0) [sampleA] (some "Nigeria") none = ⟨200, ApiBody.items []⟩ ∧
    fetchOutcome (handler (fun _ => 0) [sampleA] (some "Nigeria") none) none
      = FetchOutcome.errorState
          "No trivia found for this selection. Please go back and try another combination." :=
  c9_empty_result_not_error (fun _ => 0) [sampleA] "Nigeria" none none
    (by decide) (by decide)

/-- C5: for every input list, the output of `shuffleArray` is a permutation
of the input — same length, same multiset of elements.  The hypothesis
`hrand` records that each loop index swaps with an index at or before its
position, as `Math.floor(Math.random() * (i + 1))` always does (the
distributional uniformity of `Math.random` itself is outside the model). -/
theorem c5_shuffleArray_permutation {α : Type u} (rand : Nat → Nat) (array : List α)
    (_hrand : ∀ i, rand i ≤ i) :
    (shuffleArray rand array).Perm array ∧
    (shuffleArray rand array).length = array.length :=
  ⟨shuffleArray_perm rand array, shuffleArray_length rand array⟩

/-- Witness for C5 at `rand = const 0`, `array = [1, 2, 3]`. -/
theorem c5_shuffleArray_permutation_witness :
    (shuffleArray (fun _ => 0) [1, 2, 3]).Perm [1, 2, 3] ∧
    (shuffleArray (fun _ => 0) [1, 2, 3]).length = 3 :=
  c5_shuffleArray_permutation (fun _ => 0) [1, 2, 3] (fun i => Nat.zero_le i)

/-- C10: `shuffleArray` does not mutate its argument.  On the heap model,
the returned reference is fresh (it is not the argument and was not
allocated before the call), every previously allocated array — the argument
included — still holds exactly its old contents, and the fresh array holds
the shuffle of the argument's contents. -/
theorem c10_shuffleArray_no_mutation {α : Type u} (rand : Nat → Nat) (h : Heap α)
    (ref : Nat) (href : ref < h.length) :
    (shuffleArrayHeap rand h ref).2 ≠ ref ∧
    ¬ (shuffleArrayHeap rand h ref).2 < h.length ∧
    (∀ r, r < h.length → heapLookup (shuffleArrayHeap rand h ref).1 r = heapLookup h r) ∧
    heapLookup (shuffleArrayHeap rand h ref).1 (shuffleArrayHeap rand h ref).2
      = shuffleArray rand (heapLookup h ref) := by
  have hlt : h.length < (h ++ [heapLookup h ref]).length := by
    simp
  have hloop : (shuffleArrayHeap rand h ref).1
      = (h ++ [heapLookup h ref]).set h.length
        (fisherYatesAux rand (heapLookup (h ++ [heapLookup h ref]) h.length)
          ((heapLookup h ref).length - 1)) := by
    unfold shuffleArrayHeap
    exact fyHeapLoop_eq rand _ _ _ hlt
  have harr : heapLookup (h ++ [heapLookup h ref]) h.length = heapLookup h ref :=
    getD_append_len h (heapLookup h ref) []
  refine ⟨fun hEq => absurd (hEq ▸ href) (lt_irrefl _), Nat.lt_irrefl h.length, ?_, ?_⟩
  · intro r hr
    show heapLookup (shuffleArrayHeap rand h ref).1 r = heapLookup h r
    rw [hloop]
    exact (getD_set_ne _ _ _ (Nat.ne_of_gt hr)).trans (getD_append_left h _ [] hr)
  · show heapLookup (shuffleArrayHeap rand h ref).1 h.length = shuffleArray rand (heapLookup h ref)
    rw [hloop, harr]
    exact getD_set_self _ _ [] hlt

/-- Witness for C10 on the one-array heap `[[1, 2, 3]]`. -/
theorem c10_shuffleArray_no_mutation_witness :
    (shuffleArrayHeap (fun _ => 0) [[1, 2, 3]] 0).2 ≠ 0 ∧
    heapLookup (shuffleArrayHeap (fun _ => 0) [[1, 2, 3]] 0).1 0 = [1, 2, 3] ∧
    heapLookup (shuffleArrayHeap (fun _ => 0) [[1, 2, 3]] 0).1
        (shuffleArrayHeap (fun _ => 0) [[1, 2, 3]] 0).2
      = shuffleArray (fun _ => 0) [1, 2, 3] := by
  have h := c10_shuffleArray_no_mutation (fun _ => 0) [[1, 2, 3]] 0 (by decide)
  exact ⟨h.1, h.2.2.1 0 (by decide), h.2.2.2⟩

theorem questionEffect_items (s : PlayState) : (questionEffect s).items = s.items := by
  unfold questionEffect
  split <;> rfl

theorem questionEffect_currentIndex (s : PlayState) :
    (questionEffect s).currentIndex = s.currentIndex := by
  unfold questionEffect
  split <;> rfl

theorem questionEffect_showAnswer (s : PlayState) :
    (questionEffect s).showAnswer = s.showAnswer := by
  unfold questionEffect
  split <;> rfl

theorem questionEffect_isPaused (s : PlayState) :
    (questionEffect s).isPaused = s.isPaused := by
  unfold questionEffect
  split <;> rfl

theorem questionEffect_hasEnded (s : PlayState) :
    (questionEffect s).hasEnded = s.hasEnded := by
  unfold questionEffect
  split <;> rfl

theorem questionEffect_countdown (s : PlayState) :
    (questionEffect s).countdown = 8 ∨ (questionEffect s).countdown = s.countdown := by
  unfold questionEffect
  split
  · exact Or.inl rfl
  · exact Or.inr rfl

theorem withEffect_items (f : PlayState → PlayState) (s : PlayState) :
    (withEffect f s).items = (f s).items := by
  unfold withEffect
  split
  · rfl
  · exact questionEffect_items _

theorem withEffect_currentIndex (f : PlayState → PlayState) (s : PlayState) :
    (withEffect f s).currentIndex = (f s).currentIndex := by
  unfold withEffect
  split
  · rfl
  · exact questionEffect_currentIndex _

theorem withEffect_showAnswer (f : PlayState → PlayState) (s : PlayState) :
    (withEffect f s).showAnswer = (f s).showAnswer := by
  unfold withEffect
  split
  · rfl
  · exact questionEffect_showAnswer _

theorem withEffect_isPaused (f : PlayState → PlayState) (s : PlayState) :
    (withEffect f s).isPaused = (f s).isPaused := by
  unfold withEffect
  split
  · rfl
  · exact questionEffect_isPaused _

theorem withEffect_hasEnded (f : PlayState → PlayState) (s : PlayState) :
    (withEffect f s).hasEnded = (f s).hasEnded := by
  unfold withEffect
  split
  · rfl
  · exact questionEffect_hasEnded _

theorem withEffect_countdown (f : PlayState → PlayState) (s : PlayState) :
    (withEffect f s).countdown = 8 ∨ (withEffect f s).countdown = (f s).countdown := by
  unfold withEffect
  split
  · exact Or.inr rfl
  · exact questionEffect_countdown _

theorem inv_questionEffect (itemsZ : List TriviaItem) (s : PlayState)
    (hs : Inv itemsZ s) : Inv itemsZ (questionEffect s) := by
  obtain ⟨h1, h2, h3⟩ := hs
  unfold questionEffect
  split
  · refine ⟨h1, h2, ?_⟩
    show (0 : Int) ≤ 8
    decide
  · exact ⟨h1, h2, h3⟩

theorem inv_withEffect (itemsZ : List TriviaItem) (f : PlayState → PlayState)
    (s : PlayState) (hf : Inv itemsZ (f s)) : Inv itemsZ (withEffect f s) := by
  unfold withEffect
  split
  · exact hf
  · exact inv_questionEffect itemsZ (f s) hf

theorem inv_tickRaw (itemsZ : List TriviaItem) (s : PlayState)
    (hs : Inv itemsZ s) : Inv itemsZ (tickRaw s) := by
  obtain ⟨h1, h2, h3⟩ := hs
  unfold tickRaw
  split
  · exact ⟨h1, h2, h3⟩
  · split
    · split
      · refine ⟨h1, h2, ?_⟩
        show (0 : Int) ≤ 6
        decide
      · split
        · refine ⟨h1, ?_, ?_⟩
          · show s.currentIndex + 1 < itemsZ.length
            rename_i hlt
            rw [h1] at hlt
            omega
          · show (0 : Int) ≤ 8
            decide
        · refine ⟨h1, h2, ?_⟩
          show (0 : Int) ≤ 0
          decide
    · refine ⟨h1, h2, ?_⟩
      show 0 ≤ s.countdown - 1
      omega

theorem inv_handleNextQuestion (itemsZ : List TriviaItem) (s : PlayState)
    (hs : Inv itemsZ s) : Inv itemsZ (handleNextQuestion s) := by
  obtain ⟨h1, h2, h3⟩ := hs
  unfold handleNextQuestion
  split
  · refine ⟨h1, ?_, ?_⟩
    · show s.currentIndex + 1 < itemsZ.length
      rename_i hlt
      rw [h1] at hlt
      omega
    · show (0 : Int) ≤ 8
      decide
  · exact ⟨h1, h2, h3⟩

theorem inv_handlePausePlay (itemsZ : List TriviaItem) (s : PlayState)
    (hs : Inv itemsZ s) : Inv itemsZ (handlePausePlay s) := hs

theorem inv_handleReplay (itemsZ : List TriviaItem) (hN : 1 ≤ itemsZ.length)
    (s : PlayState) (hs : Inv itemsZ s) : Inv itemsZ (handleReplay s) := by
  refine ⟨hs.1, ?_, ?_⟩
  · show (0 : Nat) < itemsZ.length
    omega
  · show (0 : Int) ≤ 8
    decide

theorem inv_step (itemsZ : List TriviaItem) (hN : 1 ≤ itemsZ.length)
    (e : PlayEvent) (s : PlayState) (hs : Inv itemsZ s) : Inv itemsZ (step e s) := by
  cases e with
  | tick => exact inv_withEffect itemsZ _ s (inv_tickRaw itemsZ s hs)
  | pauseToggle =>
    show Inv itemsZ (if s.hasEnded then s else withEffect handlePausePlay s)
    split
    · exact hs
    · exact inv_withEffect itemsZ _ s (inv_handlePausePlay itemsZ s hs)
  | nextQuestion =>
    show Inv itemsZ (if s.hasEnded then s else withEffect handleNextQuestion s)
    split
    · exact hs
    · exact inv_withEffect itemsZ _ s (inv_handleNextQuestion itemsZ s hs)
  | repeatSpeech => exact hs
  | replayAll =>
    show Inv itemsZ (if s.hasEnded then withEffect handleReplay s else s)
    split
    · exact inv_withEffect itemsZ _ s (inv_handleReplay itemsZ hN s hs)
    · exact hs

theorem inv_initState (itemsZ : List TriviaItem) (hN : 1 ≤ itemsZ.length) :
    Inv itemsZ (initState itemsZ) := by
  refine inv_questionEffect itemsZ _ ⟨rfl, ?_, ?_⟩
  · show (0 : Nat) < itemsZ.length
    omega
  · show (0 : Int) ≤ 8
    decide

theorem inv_run (itemsZ : List TriviaItem) (hN : 1 ≤ itemsZ.length) :
    ∀ (es : List PlayEvent) (s : PlayState), Inv itemsZ s → Inv itemsZ (run es s)
  | [], _, hs => hs
  | e :: es, s, hs => inv_run itemsZ hN es (step e s) (inv_step itemsZ hN e s hs)

theorem hasEnded_stays (s : PlayState) (e : PlayEvent) (hne : e ≠ PlayEvent.replayAll)
    (hE : s.hasEnded = true) : (step e s).hasEnded = true := by
  cases e with
  | tick =>
    have h : (step PlayEvent.tick s).hasEnded = (tickRaw s).hasEnded :=
      withEffect_hasEnded tickRaw s
    rw [h]
    unfold tickRaw
    simp [hE]
  | pauseToggle =>
    show (if s.hasEnded then s else withEffect handlePausePlay s).hasEnded = true
    rw [hE]
    exact hE
  | nextQuestion =>
    show (if s.hasEnded then s else withEffect handleNextQuestion s).hasEnded = true
    rw [hE]
    exact hE
  | repeatSpeech => exact hE
  | replayAll => exact absurd rfl hne

theorem hasEnded_becomes_iff (itemsZ : List TriviaItem) (hN : 1 ≤ itemsZ.length)
    (s : PlayState) (hs : Inv itemsZ s) (e : PlayEvent) :
    ((step e s).hasEnded = true ∧ s.hasEnded = false) ↔
      (s.hasEnded = false ∧ s.currentIndex = itemsZ.length - 1 ∧
        ((e = PlayEvent.tick ∧ s.isPaused = false ∧ s.showAnswer = true ∧ s.countdown ≤ 1)
          ∨ e = PlayEvent.nextQuestion)) := by
  obtain ⟨h1, h2, h3⟩ := hs
  have hne : s.items.isEmpty = false := by
    rw [h1]
    cases itemsZ with
    | nil => simp at hN
    | cons a t => rfl
  cases e with
  | tick =>
    have hstep : (step PlayEvent.tick s).hasEnded = (tickRaw s).hasEnded :=
      withEffect_hasEnded tickRaw s
    rw [hstep]
    cases hE : s.hasEnded with
    | true =>
      have ht : tickRaw s = s := by
        unfold tickRaw
        simp [hE]
      rw [ht]
      simp [hE]
    | false =>
      cases hP : s.isPaused with
      | true =>
        have ht : tickRaw s = s := by
          unfold tickRaw
          simp [hP]
        rw [ht]
        simp [hE, hP]
      | false =>
        by_cases hcd : s.countdown ≤ 1
        · cases hsa : s.showAnswer with
          | false =>
            have ht : (tickRaw s).hasEnded = s.hasEnded := by
              unfold tickRaw
              simp [hne, hP, hE, hcd, hsa]
            rw [ht]
            simp [hE, hsa]
          | true =>
            by_cases hidx : s.currentIndex < s.items.length - 1
            · have ht : (tickRaw s).hasEnded = s.hasEnded := by
                unfold tickRaw
                simp [hne, hP, hE, hcd, hsa, hidx]
              rw [ht]
              rw [h1] at hidx
              simp [hE]
              intro hix
              omega
            · have ht : (tickRaw s).hasEnded = true := by
                unfold tickRaw
                simp [hne, hP, hE, hcd, hsa, hidx]
              rw [ht]
              rw [h1] at hidx
              simp [hE, hP, hsa, hcd]
              omega
        · have ht : (tickRaw s).hasEnded = s.hasEnded := by
            unfold tickRaw
            simp [hne, hP, hE, hcd]
          rw [ht]
          simp [hE, hcd]
  | pauseToggle =>
    have hstep : step PlayEvent.pauseToggle s
        = if s.hasEnded then s else withEffect handlePausePlay s := rfl
    rw [hstep]
    cases hE : s.hasEnded with
    | true => simp [hE]
    | false =>
      have h : (withEffect handlePausePlay s).hasEnded = s.hasEnded :=
        withEffect_hasEnded handlePausePlay s
      simp [h, hE]
  | nextQuestion =>
    have hstep : step PlayEvent.nextQuestion s
        = if s.hasEnded then s else withEffect handleNextQuestion s := rfl
    rw [hstep]
    cases hE : s.hasEnded with
    | true => simp [hE]
    | false =>
      have h : (withEffect handleNextQuestion s).hasEnded = (handleNextQuestion s).hasEnded :=
        withEffect_hasEnded handleNextQuestion s
      simp only [hE, Bool.false_eq_true, if_neg, ite_false, h]
      by_cases hidx : s.currentIndex < s.items.length - 1
      · have hn : (handleNextQuestion s).hasEnded = s.hasEnded := by
          unfold handleNextQuestion
          simp [hidx]
        rw [hn]
        rw [h1] at hidx
        simp [hE]
        intro hix
        omega
      · have hn : (handleNextQuestion s).hasEnded = true := by
          unfold handleNextQuestion
          simp [hidx]
        rw [hn]
        rw [h1] at hidx
        simp [hE]
        omega
  | repeatSpeech =>
    have hstep : step PlayEvent.repeatSpeech s = s := rfl
    rw [hstep]
    simp
  | replayAll =>
    have hstep : step PlayEvent.replayAll s
        = if s.hasEnded then withEffect handleReplay s else s := rfl
    rw [hstep]
    cases hE : s.hasEnded with
    | true =>
      have h : (withEffect handleReplay s).hasEnded = (handleReplay s).hasEnded :=
        withEffect_hasEnded handleReplay s
      have hr : (handleReplay s).hasEnded = false := rfl
      simp [hE, h, hr]
    | false => simp [hE]

/-- C1: tick transitions of the playback machine.  In a running state
(items present, unpaused, not ended): with the countdown at its expiry
value and the question showing, a tick reveals the answer and resets the
countdown to 6; with the answer showing and a next item remaining, a tick
advances the index, clears the answer, and resets the countdown to 8; any
other tick decrements the countdown by exactly 1.  Concretely, on a 2-item
run: after 8 ticks the answer of item 0 shows with countdown 6, after 6
more the question of item 1 shows with countdown 8, after 8 more its answer
shows with countdown 6, and after 6 more `hasEnded` is true. -/
theorem c1_tick_transitions :
    (∀ s : PlayState, s.items.isEmpty = false → s.isPaused = false → s.hasEnded = false →
      s.showAnswer = false → s.countdown ≤ 1 →
      step PlayEvent.tick s = { s with showAnswer := true, countdown := 6 }) ∧
    (∀ s : PlayState, s.items.isEmpty = false → s.isPaused = false → s.hasEnded = false →
      s.showAnswer = true → s.currentIndex < s.items.length - 1 → s.countdown ≤ 1 →
      step PlayEvent.tick s
        = { s with currentIndex := s.currentIndex + 1, showAnswer := false, countdown := 8 }) ∧
    (∀ s : PlayState, s.items.isEmpty = false → s.isPaused = false → s.hasEnded = false →
      1 < s.countdown →
      step PlayEvent.tick s = { s with countdown := s.countdown - 1 }) ∧
    (((step PlayEvent.tick)^[8] (initState [sampleA, sampleB])).showAnswer = true ∧
      ((step PlayEvent.tick)^[8] (initState [sampleA, sampleB])).countdown = 6 ∧
      ((step PlayEvent.tick)^[8] (initState [sampleA, sampleB])).currentIndex = 0) ∧
    (((step PlayEvent.tick)^[14] (initState [sampleA, sampleB])).showAnswer = false ∧
      ((step PlayEvent.tick)^[14] (initState [sampleA, sampleB])).countdown = 8 ∧
      ((step PlayEvent.tick)^[14] (initState [sampleA, sampleB])).currentIndex = 1) ∧
    (((step PlayEvent.tick)^[22] (initState [sampleA, sampleB])).showAnswer = true ∧
      ((step PlayEvent.tick)^[22] (initState [sampleA, sampleB])).countdown = 6 ∧
      ((step PlayEvent.tick)^[22] (initState [sampleA, sampleB])).hasEnded = false) ∧
    ((step PlayEvent.tick)^[28] (initState [sampleA, sampleB])).hasEnded = true := by
  refine ⟨?_, ?_, ?_, by decide, by decide, by decide, by decide⟩
  · intro s h1 h2 h3 h4 h5
    have ht : tickRaw s = { s with showAnswer := true, countdown := 6 } := by
      unfold tickRaw
      simp [h1, h2, h3, h4, h5]
    have hd : ¬ effectDeps { s with showAnswer := true, countdown := 6 } = effectDeps s := by
      unfold effectDeps
      simp [h4]
    show withEffect tickRaw s = _
    unfold withEffect
    rw [ht, if_neg hd]
    unfold questionEffect
    simp
  · intro s h1 h2 h3 h4 h5 h6
    have ht : tickRaw s
        = { s with currentIndex := s.currentIndex + 1, showAnswer := false, countdown := 8 } := by
      unfold tickRaw
      simp [h1, h2, h3, h4, h5, h6]
    have hd : ¬ effectDeps
        { s with currentIndex := s.currentIndex + 1, showAnswer := false, countdown := 8 }
        = effectDeps s := by
      unfold effectDeps
      simp [h4]
    show withEffect tickRaw s = _
    unfold withEffect
    rw [ht, if_neg hd]
    unfold questionEffect
    simp [h1, h2, h3]
  · intro s h1 h2 h3 h4
    have ht : tickRaw s = { s with countdown := s.countdown - 1 } := by
      unfold tickRaw
      simp [h1, h2, h3]
      omega
    have hd : effectDeps { s with countdown := s.countdown - 1 } = effectDeps s := rfl
    show withEffect tickRaw s = _
    unfold withEffect
    rw [ht, if_pos hd]

/-- Witness for C1's three transition laws at concrete running states. -/
theorem c1_tick_transitions_witness :
    step PlayEvent.tick ⟨[sampleA], 0, false, false, false, 1⟩
      = ⟨[sampleA], 0, true, false, false, 6⟩ ∧
    step PlayEvent.tick ⟨[sampleA, sampleB], 0, true, false, false, 1⟩
      = ⟨[sampleA, sampleB], 1, false, false, false, 8⟩ ∧
    step PlayEvent.tick ⟨[sampleA], 0, false, false, false, 8⟩
      = ⟨[sampleA], 0, false, false, false, 7⟩ :=
  ⟨c1_tick_transitions.1 ⟨[sampleA], 0, false, false, false, 1⟩ rfl rfl rfl rfl (by decide),
   c1_tick_transitions.2.1 ⟨[sampleA, sampleB], 0, true, false, false, 1⟩ rfl rfl rfl rfl
     (by decide) (by decide),
   c1_tick_transitions.2.2.1 ⟨[sampleA], 0, false, false, false, 8⟩ rfl rfl rfl (by decide)⟩

/-- C2: the freeze half of the claim holds — while paused, a tick changes
nothing at all — but the resume half fails in the code: the speak-question
effect lists `isPaused` in its dependency array, so resuming while a
question is showing re-runs it and resets the countdown to 8.  Concretely:
3 ticks from a fresh 2-item run reach countdown 5; pause preserves
countdown, index and answer flag; resuming (a second pause toggle) yields
countdown 8, not the frozen 5. -/
theorem c2_pause_freezes_resume_resets :
    (∀ s : PlayState, s.isPaused = true → step PlayEvent.tick s = s) ∧
    ((run [PlayEvent.tick, PlayEvent.tick, PlayEvent.tick, PlayEvent.pauseToggle]
        (initState [sampleA, sampleB])).countdown = 5 ∧
      (run [PlayEvent.tick, PlayEvent.tick, PlayEvent.tick, PlayEvent.pauseToggle]
        (initState [sampleA, sampleB])).isPaused = true ∧
      (run [PlayEvent.tick, PlayEvent.tick, PlayEvent.tick, PlayEvent.pauseToggle]
        (initState [sampleA, sampleB])).showAnswer = false ∧
      (run [PlayEvent.tick, PlayEvent.tick, PlayEvent.tick, PlayEvent.pauseToggle]
        (initState [sampleA, sampleB])).currentIndex = 0 ∧
      (step PlayEvent.pauseToggle
        (run [PlayEvent.tick, PlayEvent.tick, PlayEvent.tick, PlayEvent.pauseToggle]
          (initState [sampleA, sampleB]))).isPaused = false ∧
      (step PlayEvent.pauseToggle
        (run [PlayEvent.tick, PlayEvent.tick, PlayEvent.tick, PlayEvent.pauseToggle]
          (initState [sampleA, sampleB]))).countdown = 8) := by
  constructor
  · intro s hp
    have ht : tickRaw s = s := by
      unfold tickRaw
      simp [hp]
    have hd : effectDeps s = effectDeps s := rfl
    show withEffect tickRaw s = s
    unfold withEffect
    rw [ht, if_pos hd]
  · exact ⟨by decide, by decide, by decide, by decide, by decide, by decide⟩

/-- Witness for C2's freeze law at a concrete paused state. -/
theorem c2_pause_freezes_resume_resets_witness :
    step PlayEvent.tick ⟨[sampleA], 0, false, true, false, 5⟩
      = ⟨[sampleA], 0, false, true, false, 5⟩ :=
  c2_pause_freezes_resume_resets.1 ⟨[sampleA], 0, false, true, false, 5⟩ rfl

/-- C3: along every interleaving of ticks and user actions from the start
of a run on `N ≥ 1` retrieved items, the item list is unchanged,
`currentIndex` stays within `0..N-1` and the countdown stays non-negative;
a step makes `hasEnded` become true exactly when an unpaused tick fires on
the answer of item `N-1` with the countdown at its expiry value, or "next"
is pressed on item `N-1`; and once `hasEnded` holds, every event other than
Replay preserves it. -/
theorem c3_playback_invariants (itemsZ : List TriviaItem) (hN : 1 ≤ itemsZ.length)
    (es : List PlayEvent) :
    (run es (initState itemsZ)).items = itemsZ ∧
    (run es (initState itemsZ)).currentIndex < itemsZ.length ∧
    0 ≤ (run es (initState itemsZ)).countdown ∧
    (∀ e, ((step e (run es (initState itemsZ))).hasEnded = true ∧
        (run es (initState itemsZ)).hasEnded = false) ↔
      ((run es (initState itemsZ)).hasEnded = false ∧
        (run es (initState itemsZ)).currentIndex = itemsZ.length - 1 ∧
        ((e = PlayEvent.tick ∧ (run es (initState itemsZ)).isPaused = false ∧
            (run es (initState itemsZ)).showAnswer = true ∧
            (run es (initState itemsZ)).countdown ≤ 1)
          ∨ e = PlayEvent.nextQuestion))) ∧
    (∀ e, e ≠ PlayEvent.replayAll → (run es (initState itemsZ)).hasEnded = true →
      (step e (run es (initState itemsZ))).hasEnded = true) := by
  have hinv : Inv itemsZ (run es (initState itemsZ)) :=
    inv_run itemsZ hN es _ (inv_initState itemsZ hN)
  refine ⟨hinv.1, hinv.2.1, hinv.2.2, ?_, ?_⟩
  · intro e
    exact hasEnded_becomes_iff itemsZ hN _ hinv e
  · intro e h he
    exact hasEnded_stays _ e h he

/-- Witness for C3 on a finished 2-item run (28 ticks). -/
theorem c3_playback_invariants_witness :
    (run (List.replicate 28 PlayEvent.tick) (initState [sampleA, sampleB])).items
      = [sampleA, sampleB] ∧
    (run (List.replicate 28 PlayEvent.tick) (initState [sampleA, sampleB])).currentIndex
      < [sampleA, sampleB].length ∧
    0 ≤ (run (List.replicate 28 PlayEvent.tick) (initState [sampleA, sampleB])).countdown ∧
    (step PlayEvent.tick
      (run (List.replicate 28 PlayEvent.tick) (initState [sampleA, sampleB]))).hasEnded
      = true := by
  have h := c3_playback_invariants [sampleA, sampleB] (by decide)
    (List.replicate 28 PlayEvent.tick)
  exact ⟨h.1, h.2.1, h.2.2.1, h.2.2.2.2 PlayEvent.tick (by decide) (by decide)⟩

/-- C8 counterexample: the initial state of a 2-item run is non-terminal
(question of item 0 showing, not the last item), yet "next" advances to the
question of item 1 while the natural countdown-expiry transition reveals
the answer of item 0 — different successor states. -/
theorem c8_counterexample :
    step PlayEvent.nextQuestion (initState [sampleA, sampleB])
      ≠ expirySuccessor (initState [sampleA, sampleB]) := by
  decide

/-- C8 (amended): in a running state, "next" coincides with the natural
expiry transition exactly when the answer is showing and a next item
remains; when the question is showing it instead skips the answer and jumps
to the next question; and on the last item it transitions to Ended (from
either phase). -/
theorem c8_next_vs_expiry (s : PlayState)
    (hne : s.hasEnded = false) (hp : s.isPaused = false)
    (hitems : s.items.isEmpty = false) :
    (s.showAnswer = true → s.currentIndex < s.items.length - 1 →
      step PlayEvent.nextQuestion s = expirySuccessor s) ∧
    (s.currentIndex < s.items.length - 1 →
      step PlayEvent.nextQuestion s
        = { s with currentIndex := s.currentIndex + 1, showAnswer := false, countdown := 8 }) ∧
    (¬ s.currentIndex < s.items.length - 1 →
      (step PlayEvent.nextQuestion s).hasEnded = true) := by
  have hnext : ∀ hidx : s.currentIndex < s.items.length - 1,
      step PlayEvent.nextQuestion s
        = { s with currentIndex := s.currentIndex + 1, showAnswer := false, countdown := 8 } := by
    intro hidx
    have hstep : step PlayEvent.nextQuestion s
        = if s.hasEnded then s else withEffect handleNextQuestion s := rfl
    rw [hstep, hne]
    have hn : handleNextQuestion s
        = { s with currentIndex := s.currentIndex + 1, showAnswer := false, countdown := 8 } := by
      unfold handleNextQuestion
      simp [hidx]
    show withEffect handleNextQuestion s = _
    unfold withEffect
    rw [hn]
    have hd : ¬ effectDeps
        { s with currentIndex := s.currentIndex + 1, showAnswer := false, countdown := 8 }
        = effectDeps s := by
      unfold effectDeps
      simp
    rw [if_neg hd]
    unfold questionEffect
    simp [hitems, hp, hne]
  refine ⟨?_, hnext, ?_⟩
  · intro hsa hidx
    rw [hnext hidx]
    have hexp : tickRaw { s with countdown := 1 }
        = { s with currentIndex := s.currentIndex + 1, showAnswer := false, countdown := 8 } := by
      unfold tickRaw
      simp [hitems, hp, hne, hsa, hidx]
    show _ = withEffect tickRaw { s with countdown := 1 }
    unfold withEffect
    rw [hexp]
    have hd : ¬ effectDeps
        { s with currentIndex := s.currentIndex + 1, showAnswer := false, countdown := 8 }
        = effectDeps { s with countdown := 1 } := by
      unfold effectDeps
      simp
    rw [if_neg hd]
    unfold questionEffect
    simp [hitems, hp, hne]
  · intro hidx
    have hstep : step PlayEvent.nextQuestion s
        = if s.hasEnded then s else withEffect handleNextQuestion s := rfl
    rw [hstep, hne]
    have h : (withEffect handleNextQuestion s).hasEnded = (handleNextQuestion s).hasEnded :=
      withEffect_hasEnded handleNextQuestion s
    show (withEffect handleNextQuestion s).hasEnded = true
    rw [h]
    unfold handleNextQuestion
    simp [hidx]

/-- Witness for the amended C8 at concrete states. -/
theorem c8_next_vs_expiry_witness :
    step PlayEvent.nextQuestion ⟨[sampleA, sampleB], 0, true, false, false, 4⟩
      = expirySuccessor ⟨[sampleA, sampleB], 0, true, false, false, 4⟩ ∧
    (step PlayEvent.nextQuestion ⟨[sampleA], 0, false, false, false, 4⟩).hasEnded = true :=
  ⟨(c8_next_vs_expiry ⟨[sampleA, sampleB], 0, true, false, false, 4⟩ rfl rfl rfl).1
      rfl (by decide),
   (c8_next_vs_expiry ⟨[sampleA], 0, false, false, false, 4⟩ rfl rfl rfl).2.2 (by decide)⟩

end WorldTriviaTV
